import Mathlib

/-!
Verification of the go-s3fs core against its specification.

This file shallowly embeds the parts of the go-s3fs sources that the
claims touch:

* the object-store client (`validateBucket`, `CreateBucket`, `DeleteBucket`,
  `HeadObject`, `GetObject`) from the s3 client source file;
* the retry backoff policy `ExponentialJitterBackoff.BackoffDelay`;
* the per-open-file accounting node `S3Node` (`checkReadBefore`,
  `checkReadAfter`, `read`, `Read`, accounted `Write`, `Close`, `Done`);
* the tree builder `s3Root.OnAdd`.

Machine integers are modelled as `Int`/`Nat`; where overflow matters — the
backoff policy's `int` (int64) product — the two's-complement wraparound is
modelled explicitly (`wrapInt64`).  Go's `float64` arithmetic in the
backoff policy is modelled as exact rational arithmetic with truncating
division (`jitter = (randIntn40 + 80) / 100`); see `BackoffDelay` for the
domain on which this is exact.  Fallible calls
return `Except`/`Option`; the remote backend and the raw byte streams are
oracles passed in explicitly.  Each client operation also returns the list
of backend requests it issued, so that "no backend call is made" and
"headObject is issued before the read" are provable statements.
-/

/-- Domain errors of the client.  `invalidBucketName` is `ErrInvalidBucketName`,
`bucketExisted` is `ErrBucketExisted` (errors source file); `noSuchBucket` /
`noSuchKey` model the backend's typed errors; `sizeMismatch` is the
`fmt.Errorf("Unknown Error In Ceph RGW")` length-mismatch failure in
`GetObject`; `backendErr` models any other backend fault. -/
inductive S3Err where
  | invalidBucketName
  | bucketExisted
  | noSuchBucket
  | noSuchKey
  | sizeMismatch
  | backendErr (tag : Nat)
deriving DecidableEq, Repr

/-- A request sent to the remote backend.  `download` records the size of the
pre-allocated buffer handed to the downloader (`make([]byte, contentLength)`
in `GetObject`). -/
inductive Req where
  | headBucket (bucket : String)
  | createBucket (bucket : String)
  | listObjects (bucket : String)
  | deleteObject (bucket : String) (key : String)
  | deleteBucket (bucket : String)
  | headObject (bucket : String) (key : String)
  | download (bucket : String) (key : String) (bufSize : Nat)
deriving DecidableEq, Repr

/-- The remote backend state: buckets, each mapping object keys to object
sizes (the content length reported by head requests). -/
structure Backend where
  buckets : List (String × List (String × Nat))
deriving DecidableEq, Repr

namespace Backend

/-- Look up a bucket's object map. -/
def findBucket (be : Backend) (name : String) : Option (List (String × Nat)) :=
  (be.buckets.find? (fun b => b.1 = name)).map (·.2)

/-- Backend `HeadBucket`: succeeds exactly when the bucket exists. -/
def headBucket (be : Backend) (name : String) : Except S3Err Unit :=
  match be.findBucket name with
  | some _ => .ok ()
  | none => .error .noSuchBucket

/-- Backend `HeadObject`: returns the object's content length, or the typed
no-such-bucket / no-such-key error. -/
def headObject (be : Backend) (bucket key : String) : Except S3Err Nat :=
  match be.findBucket bucket with
  | none => .error .noSuchBucket
  | some objs =>
    match objs.find? (fun o => o.1 = key) with
    | some o => .ok o.2
    | none => .error .noSuchKey

end Backend

/-! ## Path helpers (Go `path/filepath`, slash separator)

`filepath.Clean` and `filepath.Split` are Go standard library functions used
by the client (`filepath.Clean(fmt.Sprintf("./%s", path))`) and the tree
builder (`filepath.Split(filepath.Clean(f.Name))`).  They are embedded here
by Go's documented lexical algorithm. -/

/-- Split a character list at every occurrence of `sep` (the semantics of
Go `strings.Split` with a one-character separator). -/
def splitChars (sep : Char) : List Char → List (List Char)
  | [] => [[]]
  | c :: cs =>
    let r := splitChars sep cs
    if c = sep then [] :: r
    else
      match r with
      | [] => [[c]]
      | hd :: tl => (c :: hd) :: tl

/-- `strings.Split(s, "/")` (also the behaviour of `String.splitOn "/"`),
implemented by structural recursion over the characters. -/
def splitSlash (s : String) : List String :=
  (splitChars '/' s.data).map String.mk

/-- Whether the path is rooted, i.e. begins with `/`. -/
def startsWithSlash (s : String) : Bool :=
  match s.data with
  | c :: _ => c = '/'
  | [] => false

/-- One step of `Clean`'s component processing: `acc` is the reversed stack
of kept components. -/
def cleanStep (rooted : Bool) (acc : List String) (c : String) : List String :=
  if c = "" ∨ c = "." then acc
  else if c = ".." then
    match acc with
    | [] => if rooted then [] else [".."]
    | a :: rest => if a = ".." then c :: a :: rest else rest
  else c :: acc

/-- Go `path.Clean` (= `filepath.Clean` with `/` separators): drop empty and
`.` components, resolve `..` lexically, keep a leading `/`, return `"."` for
an empty result. -/
def cleanPath (p : String) : String :=
  if p = "" then "."
  else
    let rooted := startsWithSlash p
    let comps := splitSlash p
    let kept := (comps.foldl (cleanStep rooted) []).reverse
    let joined := String.intercalate "/" kept
    if kept.isEmpty then (if rooted then "/" else ".")
    else (if rooted then "/" ++ joined else joined)

/-- Go `filepath.Split`: splits after the final separator into
(directory-with-trailing-slash, base). -/
def splitPath (p : String) : String × String :=
  match (splitSlash p).reverse with
  | [] => ("", p)
  | base :: revDirs =>
    if revDirs.isEmpty then ("", base)
    else (String.intercalate "/" (revDirs.reverse ++ [""]), base)

/-- The key actually used by the client for a user-supplied path:
`filepath.Clean(fmt.Sprintf("./%s", path))`. -/
def cleanKey (path : String) : String :=
  cleanPath ("./" ++ path)

/-! ## Retry backoff policy

`ExponentialJitterBackoff.BackoffDelay(attempt, err)` computes
`jitter := float64(rand.Intn(120-80)+80) / 100` and
`retryTime := Duration(int(float64(int(minDelay.Nanoseconds())*int(math.Pow(3, float64(attempt)))) * jitter))`,
then caps the result at 5 minutes.  The random draw `rand.Intn(40)` is made
explicit as a `Fin 40` argument; the error argument is never inspected by
the source, so it is omitted.

Machine-arithmetic fidelity:
* `int(math.Pow(3, float64(attempt)))` is modelled as the exact power
  `3 ^ attempt`; this is what Go computes whenever `3 ^ attempt < 2^53`
  (every attempt ≤ 33, covering all attempts this file reasons about —
  beyond that `float64` cannot hold the power exactly).
* the `int` (int64) product `int(minDelay.Nanoseconds()) * int(...)` wraps
  on overflow; this wraparound is modelled exactly by `wrapInt64` — it is
  what makes the delay negative at large attempts.
* `int(float64(product) * jitter)` is modelled as the exact rational
  product truncated toward zero, `(product * (j+80)).tdiv 100`; this is
  the one idealised step — `float64` rounding (at most 1 ulp, sign- and
  order-preserving) is not modelled. -/

/-- 5 minutes in nanoseconds (`time.Duration` is an int64 nanosecond
count), the cap applied by `BackoffDelay`. -/
def fiveMinutesNs : Int := 300000000000

/-- Go's two's-complement wraparound of an `int` (int64) value: reduce
mod `2^64` and reinterpret the high range as negative. -/
def wrapInt64 (x : Int) : Int :=
  let r := x % (2 ^ 64 : Int)
  if r < 2 ^ 63 then r else r - 2 ^ 64

/-- `ExponentialJitterBackoff.BackoffDelay` with the jitter draw explicit:
the wrapping int64 product `minDelayNs * 3^attempt`, multiplied by the
jitter factor `(j+80)/100` with truncation toward zero, capped at 5
minutes (see the section comment for the float64 fidelity notes). -/
def BackoffDelay (minDelayNs : Int) (attempt : Nat) (j : Fin 40) : Int :=
  let product := wrapInt64 (minDelayNs * 3 ^ attempt)
  let retryTime := (product * ((j.val : Int) + 80)).tdiv 100
  if retryTime > fiveMinutesNs then fiveMinutesNs else retryTime

/-! ## The accounted reader `S3Node`

`S3Node` keeps a context (modelled by what its `Err()` returns), a `closed`
flag, whether `sno.close` is nil, and the `exit` channel (modelled by a
"was already closed" flag, since closing a closed Go channel panics).  The
underlying stream's `Read`/`Write` results are passed as an explicit pair
`(n, err)`. -/

structure S3NodeState where
  /-- `sno.ctx.Err()`: `none` while the context is live. -/
  cancelErr : Option S3Err
  /-- `sno.closed`. -/
  closed : Bool
  /-- `sno.close ≠ nil`. -/
  hasCloser : Bool
  /-- what `sno.close.Close()` would return, when there is a closer. -/
  closeResult : Option S3Err
  /-- the `exit` channel has already been closed. -/
  exitClosed : Bool
deriving DecidableEq, Repr

namespace S3NodeState

/-- `checkReadBefore`: fails when the context is cancelled; otherwise returns
the named result `bytesUntilLimit`, which is never assigned and therefore
still holds its zero value. -/
def checkReadBefore (st : S3NodeState) : Except S3Err Int :=
  match st.cancelErr with
  | some e => .error e
  | none => .ok 0

/-- `checkReadAfter(bytesUntilLimit, n, err)`: subtracts `n` from the limit
and chops the overage off the reported count, flooring at 0. -/
def checkReadAfter (bytesUntilLimit : Int) (n : Int) (err : Option S3Err) :
    Int × Option S3Err :=
  let b := bytesUntilLimit - n
  let n' := if b < 0 then (if n + b < 0 then 0 else n + b) else n
  (n', err)

/-- `S3Node.read`: `checkReadBefore`, then the underlying `in.Read` (whose
result is the oracle `rd`), then `checkReadAfter`.  On a cancelled context
the named return `n` keeps its zero value. -/
def read (st : S3NodeState) (rd : Int × Option S3Err) : Int × Option S3Err :=
  match st.checkReadBefore with
  | .error e => (0, some e)
  | .ok bytesUntilLimit =>
    checkReadAfter bytesUntilLimit rd.1 rd.2

/-- `S3Node.Read`: takes the mutex and delegates to `read` on the current
stream. -/
def Read (st : S3NodeState) (rd : Int × Option S3Err) : Int × Option S3Err :=
  st.read rd

/-- `accountWriteTo.Write`: the same `checkReadBefore` / `checkReadAfter`
pair around the underlying `w.Write` (result `wr`); used by `WriteTo`. -/
def accountWrite (st : S3NodeState) (wr : Int × Option S3Err) :
    Int × Option S3Err :=
  match st.checkReadBefore with
  | .error e => (0, some e)
  | .ok bytesUntilLimit =>
    checkReadAfter bytesUntilLimit wr.1 wr.2

/-- `S3Node.AccountRead`: the same check pair, returning only the error. -/
def AccountRead (st : S3NodeState) (n : Int) : Option S3Err :=
  match st.checkReadBefore with
  | .error e => some e
  | .ok bytesUntilLimit => (checkReadAfter bytesUntilLimit n none).2

/-- `S3Node.Close`: a second close is a no-op returning nil; the first close
sets the flag and closes the underlying closer when there is one. -/
def Close (st : S3NodeState) : Option S3Err × S3NodeState :=
  if st.closed then (none, st)
  else
    let st' := { st with closed := true }
    if st.hasCloser then (st.closeResult, st') else (none, st')

/-- Outcome of `S3Node.Done`: Go's `close` on an already-closed channel
panics. -/
inductive DoneOutcome where
  | ok (st : S3NodeState)
  | panics
deriving DecidableEq, Repr

/-- `S3Node.Done`: unconditionally executes `close(sno.exit)`. -/
def Done (st : S3NodeState) : DoneOutcome :=
  if st.exitClosed then .panics
  else .ok { st with exitClosed := true }

end S3NodeState

/-! ## The object-store client

Each operation returns its result together with the list of backend
requests it issued, in order.  Go's `len(name)` counts bytes, so bucket-name
length is `String.utf8ByteSize`. -/

/-- `s3Client.validateBucket`: `-1` for a name of length ≤ 2 (no backend
call), else `0` when the `HeadBucket` probe errors, `1` when it succeeds. -/
def validateBucket (be : Backend) (name : String) : Int × List Req :=
  if name.utf8ByteSize ≤ 2 then (-1, [])
  else
    match be.headBucket name with
    | .error _ => (0, [.headBucket name])
    | .ok _ => (1, [.headBucket name])

/-- `s3Client.CreateBucket`: validates (twice, as in the source), then issues
the backend create.  `createOk` is the backend's answer to the create call. -/
def CreateBucket (be : Backend) (createOk : Except S3Err Unit)
    (name : String) : Except S3Err String × List Req :=
  let v1 := validateBucket be name
  if v1.1 = -1 then (.error .invalidBucketName, v1.2)
  else
    let v2 := validateBucket be name
    if v2.1 = 1 then (.error .bucketExisted, v1.2 ++ v2.2)
    else
      match createOk with
      | .error e => (.error e, v1.2 ++ v2.2 ++ [.createBucket name])
      | .ok _ => (.ok name, v1.2 ++ v2.2 ++ [.createBucket name])

/-- `s3Client.HeadObject`: on a failed bucket validation it returns `(0, nil)`;
otherwise it cleans the path and issues the backend head request, propagating
its error or content length. -/
def HeadObject (be : Backend) (bucket path : String) :
    Except S3Err Nat × List Req :=
  let v := validateBucket be bucket
  if v.1 ≠ 1 then (.ok 0, v.2)
  else
    let cpath := cleanKey path
    match be.headObject bucket cpath with
    | .error e => (.error e, v.2 ++ [.headObject bucket cpath])
    | .ok len => (.ok len, v.2 ++ [.headObject bucket cpath])

/-- `s3Client.GetObject`: validate the bucket, `HeadObject` for the content
length, allocate `make([]byte, contentLength)` and download into it (the
downloader's outcome, given the buffer size, is the oracle `dl`); a NoSuchKey
download error is returned as success with an empty object (source lines
485–491); any byte-count mismatch is the "Unknown Error In Ceph RGW"
failure, modelled as `sizeMismatch`.  The result carries the object's
(prefix, name) pair from `filepath.Split`. -/
def GetObject (be : Backend) (dl : Nat → Except S3Err Nat)
    (bucket path : String) : Except S3Err (String × String) × List Req :=
  let v := validateBucket be bucket
  if v.1 ≠ 1 then (.error .invalidBucketName, v.2)
  else
    let cpath := cleanKey path
    let sp := splitPath cpath
    let h := HeadObject be bucket path
    match h.1 with
    | .error e => (.error e, v.2 ++ h.2)
    | .ok contentLength =>
      let t := v.2 ++ h.2 ++ [.download bucket cpath contentLength]
      match dl contentLength with
      | .error e =>
        if e = .noSuchKey then (.ok (sp.1, sp.2), t) else (.error e, t)
      | .ok numBytes =>
        if numBytes ≠ contentLength then (.error .sizeMismatch, t)
        else (.ok (sp.1, sp.2), t)

/-- `s3Client.DeleteObject`: validate the bucket, then issue the backend
delete; `delErr` is the backend's answer for the cleaned key. -/
def DeleteObject (be : Backend) (delErr : String → Option S3Err)
    (bucket path : String) : Option S3Err × List Req :=
  let v := validateBucket be bucket
  if v.1 ≠ 1 then (some .invalidBucketName, v.2)
  else
    let cpath := cleanKey path
    (delErr cpath, v.2 ++ [.deleteObject bucket cpath])

/-- How a call that may never return is reported: either it terminates with
a value, or the calling goroutine blocks forever. -/
inductive Outcome (α : Type) where
  | terminates (val : α)
  | blocks
deriving DecidableEq, Repr

/-- Result of `DeleteBucket`'s page loop: all pages drained, or the loop
returned early (with the *list* error variable, which is nil), or the
goroutine deadlocked. -/
inductive PageLoopResult where
  | finished
  | earlyNilReturn
  | blocked
deriving DecidableEq, Repr

/-- The `for { ListObjectsV2; for _, item := range out.Contents { ... } }`
loop of `DeleteBucket`.  Per item the source does `wg.Add(1)` (never matched
by a `wg.Done`), spawns one goroutine sending `DeleteObject`'s result on the
shared channel `cos`, spawns one goroutine that waits on `wg` (forever)
before closing `cos`, and then drains `cos` with `for ret := range cos`:

* the drain receives the one result for the current item;
* if it is non-nil the function executes `return err` — and `err` is the
  `ListObjectsV2` error, which is nil here (a non-nil one aborts the process
  via `log.Fatalf`), so the loop returns early *without* an error;
* if it is nil the drain waits for the next value on `cos`; no sender is
  left and `cos` is never closed (the waitgroup counter never reaches 0),
  so the goroutine blocks forever.

Hence only an empty page completes normally; `pages` lists the successive
`ListObjectsV2` pages, the last one having `IsTruncated == false`. -/
def deleteBucketPages (be : Backend) (delErr : String → Option S3Err)
    (name : String) : List (List String) → PageLoopResult × List Req
  | [] => (.finished, [])
  | page :: rest =>
    let t := [Req.listObjects name]
    match page with
    | [] =>
      if rest.isEmpty then (.finished, t)
      else
        let r := deleteBucketPages be delErr name rest
        (r.1, t ++ r.2)
    | k :: _ =>
      let d := DeleteObject be delErr name k
      match d.1 with
      | some _ => (.earlyNilReturn, t ++ d.2)
      | none => (.blocked, t ++ d.2)

/-- `s3Client.DeleteBucket`: validate the bucket, run the page loop, and only
when every page drained issue the backend `DeleteBucket` call (`delBucket` is
the backend's answer to it). -/
def DeleteBucket (be : Backend) (delErr : String → Option S3Err)
    (delBucket : Except S3Err Unit) (pages : List (List String))
    (name : String) : Outcome (Option S3Err) × List Req :=
  let v := validateBucket be name
  if v.1 ≠ 1 then (.terminates (some .invalidBucketName), v.2)
  else
    let r := deleteBucketPages be delErr name pages
    match r.1 with
    | .earlyNilReturn => (.terminates none, v.2 ++ r.2)
    | .blocked => (.blocks, v.2 ++ r.2)
    | .finished =>
      match delBucket with
      | .error e => (.terminates (some e), v.2 ++ r.2 ++ [.deleteBucket name])
      | .ok _ => (.terminates none, v.2 ++ r.2 ++ [.deleteBucket name])

/-! ## The tree builder `s3Root.OnAdd`

The builder walks `fs.Inode` nodes.  The `Inode` child-map operations
(`GetChild`, `AddChild` with `overwrite == true`, `NewPersistentInode`) are
not part of the sources given; they are modelled from the spec:
a TreeNode's Directory variant "holds an insertion-ordered mapping from
child name → child TreeNode (unique per parent, created on demand, never
duplicated for the same path component)", so `GetChild` is lookup and
`AddChild` replaces an existing binding in place or appends a new one. -/

/-- An inode: a directory bit (`fuse.S_IFDIR` for intermediate nodes, the
zero `StableAttr` i.e. a regular file for leaves) and its children. -/
inductive Inode where
  | mk (isDir : Bool) (children : List (String × Inode))

namespace Inode

/-- The directory bit. -/
def isDir : Inode → Bool
  | .mk d _ => d

/-- The child list. -/
def children : Inode → List (String × Inode)
  | .mk _ cs => cs

/-- Modelled from the spec: `Inode.GetChild` — lookup in the insertion-ordered
child mapping. -/
def getChild (node : Inode) (name : String) : Option Inode :=
  (node.children.find? (fun c => c.1 = name)).map (·.2)

/-- Modelled from the spec: `Inode.AddChild(name, ch, true)` — update the
insertion-ordered child mapping: replace an existing binding for `name` in
place, otherwise append it. -/
def addChild (node : Inode) (name : String) (ch : Inode) : Inode :=
  match node with
  | .mk d cs =>
    if cs.any (fun c => c.1 = name) then
      .mk d (cs.map (fun c => if c.1 = name then (name, ch) else c))
    else
      .mk d (cs ++ [(name, ch)])

end Inode

/-- The inner walk of `OnAdd` for one key: descend through the directory
components (`GetChild`; when absent, create a fresh directory inode and
`AddChild` it), then attach the file node for the base name with
`AddChild(base, ch, true)`.  An existing child is descended into whatever
its kind, and the final `AddChild` overwrites whatever is there. -/
def attachKey : Inode → List String → String → Inode
  | node, [], base => node.addChild base (.mk false [])
  | node, c :: rest, base =>
    match node.getChild c with
    | some ch => node.addChild c (attachKey ch rest base)
    | none => node.addChild c (attachKey (.mk true []) rest base)

/-- One iteration of `OnAdd`'s entry loop:
`dir, base := filepath.Split(filepath.Clean(f.Name))`, then walk the `/`-
separated components of `dir`, skipping empty ones. -/
def onAddKey (root : Inode) (name : String) : Inode :=
  let cleaned := cleanPath name
  let sp := splitPath cleaned
  let comps := (splitSlash sp.1).filter (fun c => ¬ c.length = 0)
  attachKey root comps sp.2

/-- `s3Root.OnAdd`: fold over the listed entries, skipping directories
(`f.FileInfo().IsDir()`), attaching a file node for each remaining key. -/
def OnAdd (entries : List (String × Bool)) : Inode :=
  entries.foldl (fun acc e => if e.2 then acc else onAddKey acc e.1)
    (.mk true [])

/-- A freshly opened handle: live context, not closed, no underlying closer
attached, exit channel still open. -/
def idleNode : S3NodeState :=
  { cancelErr := none, closed := false, hasCloser := false,
    closeResult := none, exitClosed := false }

/-- A sample backend: one bucket `"abc"` holding `"k1"` (5 bytes) and
`"k2"` (6 bytes). -/
def sampleBackend : Backend := ⟨[("abc", [("k1", 5), ("k2", 6)])]⟩

/-! ## Helper lemmas -/

/-- With a zero byte limit, `checkReadAfter` clamps every non-negative count
to zero and passes the error through. -/
theorem checkReadAfter_zero_clamps (n : Int) (e : Option S3Err) (hn : 0 ≤ n) :
    S3NodeState.checkReadAfter 0 n e = (0, e) := by
  unfold S3NodeState.checkReadAfter
  dsimp only
  split_ifs <;> (first | omega | (refine Prod.ext ?_ rfl; dsimp only; omega))

/-- `wrapInt64` is the identity on the int64-representable non-negative
range. -/
theorem wrapInt64_eq_self (x : Int) (h0 : 0 ≤ x) (h1 : x < 2 ^ 63) :
    wrapInt64 x = x := by
  unfold wrapInt64
  dsimp only
  have h64 : (2 : Int) ^ 64 = 18446744073709551616 := by norm_num
  have h63 : (2 : Int) ^ 63 = 9223372036854775808 := by norm_num
  rw [h64, h63] at *
  omega

/-- While neither this attempt's int64 product nor the next one's
overflows, the backoff delay is monotone in the attempt number, jitter
fixed. -/
theorem backoffDelay_mono_of_no_overflow (base : Int) (k : Nat) (j : Fin 40)
    (hbase : 0 ≤ base) (hno : base * 3 ^ (k + 1) < 2 ^ 63) :
    BackoffDelay base k j ≤ BackoffDelay base (k + 1) j := by
  have hjp : (0 : Int) ≤ (j.val : Int) + 80 := by positivity
  have hle : base * 3 ^ k ≤ base * 3 ^ (k + 1) :=
    mul_le_mul_of_nonneg_left
      (pow_le_pow_right₀ (by norm_num) (Nat.le_succ k)) hbase
  have h0k : 0 ≤ base * 3 ^ k := mul_nonneg hbase (by positivity)
  have h0k1 : 0 ≤ base * 3 ^ (k + 1) := le_trans h0k hle
  have hk : base * 3 ^ k < 2 ^ 63 := lt_of_le_of_lt hle hno
  unfold BackoffDelay
  rw [wrapInt64_eq_self _ h0k hk, wrapInt64_eq_self _ h0k1 hno]
  dsimp only
  have hm : ((base * 3 ^ k) * ((j.val : Int) + 80)).tdiv 100 ≤
      ((base * 3 ^ (k + 1)) * ((j.val : Int) + 80)).tdiv 100 := by
    rw [Int.tdiv_eq_ediv (mul_nonneg h0k hjp) (by norm_num),
      Int.tdiv_eq_ediv (mul_nonneg h0k1 hjp) (by norm_num)]
    exact Int.ediv_le_ediv (by norm_num) (mul_le_mul_of_nonneg_right hle hjp)
  split_ifs <;> omega

/-- In the child list produced by an in-place replacement of the binding for
`name`, the first `name` entry is the replacement. -/
theorem find?_replaceBinding (name : String) (x : Inode) :
    ∀ cs : List (String × Inode), (cs.any fun c => c.1 = name) = true →
    (cs.map fun c => if c.1 = name then (name, x) else c).find?
      (fun c => c.1 = name) = some (name, x)
  | [], h => by simp at h
  | hd :: tl, h => by
    by_cases hhd : hd.1 = name
    · simp [List.find?, hhd]
    · have htl : (tl.any fun c => c.1 = name) = true := by
        simpa [List.any_cons, hhd] using h
      simpa [List.find?, hhd] using find?_replaceBinding name x tl htl

/-- In the child list produced by appending a fresh binding for an unbound
`name`, the first `name` entry is the appended one. -/
theorem find?_appendBinding (name : String) (x : Inode) :
    ∀ cs : List (String × Inode), (cs.any fun c => c.1 = name) = false →
    (cs ++ [(name, x)]).find? (fun c => c.1 = name) = some (name, x)
  | [], _ => by simp [List.find?]
  | hd :: tl, h => by
    have hhd : ¬ hd.1 = name := by
      intro hc
      simp [List.any_cons, hc] at h
    have htl : (tl.any fun c => c.1 = name) = false := by
      simpa [List.any_cons, hhd] using h
    simpa [List.find?, hhd] using find?_appendBinding name x tl htl

/-- After `addChild name x`, looking `name` up yields `x`: a pre-existing
binding is replaced, otherwise the binding is appended. -/
theorem Inode.getChild_addChild (node : Inode) (name : String) (x : Inode) :
    (node.addChild name x).getChild name = some x := by
  rcases node with ⟨d, cs⟩
  unfold Inode.addChild Inode.getChild Inode.children
  dsimp only
  split_ifs with hany
  · rw [find?_replaceBinding name x cs hany]
    rfl
  · rw [find?_appendBinding name x cs
      (by simp only [Bool.not_eq_true] at hany; exact hany)]
    rfl

/-- Closing an already-closed handle is the identity, returning nil. -/
theorem close_of_closed (s : S3NodeState) (h : s.closed = true) :
    s.Close = (none, s) := by
  unfold S3NodeState.Close
  rw [if_pos h]

/-- After any `Close`, the closed flag is set. -/
theorem closed_after_close (st : S3NodeState) : (st.Close).2.closed = true := by
  unfold S3NodeState.Close
  split_ifs with h1 h2 <;> simp_all

/-! ## The claims -/

/-- C2: with a live (uncancelled) context, the byte count reported by a read
is 0 even when the underlying stream produced `n ≥ 0` bytes: the
`bytesUntilLimit` counter computed by `checkReadBefore` is always the zero
value, so `checkReadAfter` clamps every non-negative count to zero; the
accounted `Write` used by `WriteTo` runs the same check pair and reports 0
as well.  The underlying stream's error is passed through unchanged. -/
theorem read_reports_zero_bytes (st : S3NodeState) (n : Int) (e : Option S3Err)
    (hctx : st.cancelErr = none) (hn : 0 ≤ n) :
    st.Read (n, e) = (0, e) ∧ st.accountWrite (n, e) = (0, e) := by
  have h := checkReadAfter_zero_clamps n e hn
  unfold S3NodeState.Read S3NodeState.read S3NodeState.accountWrite
    S3NodeState.checkReadBefore
  rw [hctx]
  exact ⟨h, h⟩

/-- Witness for C2 at a fresh handle and a successful 3-byte underlying
read/write. -/
theorem read_reports_zero_bytes_witness :
    idleNode.cancelErr = none ∧ (0 : Int) ≤ 3 ∧
      (idleNode.Read (3, none) = (0, none) ∧
       idleNode.accountWrite (3, none) = (0, none)) :=
  ⟨rfl, by decide, read_reports_zero_bytes idleNode 3 none rfl (by decide)⟩

/-- C3: for a bucket name of byte length ≤ 2, `CreateBucket` returns the
validation error `ErrInvalidBucketName` and its request trace is empty — in
particular no `HeadBucket` probe and no create request are sent. -/
theorem createBucket_short_name_rejected (be : Backend)
    (createOk : Except S3Err Unit) (name : String)
    (hlen : name.utf8ByteSize ≤ 2) :
    CreateBucket be createOk name = (.error .invalidBucketName, []) := by
  unfold CreateBucket validateBucket
  rw [if_pos hlen]
  simp

/-- Witness for C3 at the bucket name `"ab"`. -/
theorem createBucket_short_name_rejected_witness :
    "ab".utf8ByteSize ≤ 2 ∧
      CreateBucket sampleBackend (.ok ()) "ab" =
        (.error .invalidBucketName, []) :=
  ⟨by decide, createBucket_short_name_rejected sampleBackend (.ok ()) "ab"
    (by decide)⟩

/-- C4 counterexample: with the configured 25 ms base, the int64 product
wraps at attempt 33 to a negative value, so the delay at jitter draw 0 is
about −1.0e18 ns — not the capped jitter-perturbed formula, which would
give the positive 5-minute cap.  The 40-draw expectation is exactly the
cap at attempt 32 and deeply negative at attempt 33, refuting
non-decreasing expectation as well. -/
theorem backoff_overflow_negative_delay :
    wrapInt64 (25000000 * 3 ^ 33) = -1255687439686874944 ∧
    BackoffDelay 25000000 33 (0 : Fin 40) = -1004549951749499955 ∧
    BackoffDelay 25000000 33 (0 : Fin 40) < 0 ∧
    (∑ i : Fin 40, BackoffDelay 25000000 32 i) = 40 * fiveMinutesNs ∧
    (∑ i : Fin 40, BackoffDelay 25000000 33 i) <
      ∑ i : Fin 40, BackoffDelay 25000000 32 i := by decide

/-- C4 as amended: the delay never exceeds 5 minutes for every attempt and
jitter draw; and on attempts where neither this attempt's int64 product
`base * 3^k` nor the next one's overflows, the delay equals that product
perturbed by the jitter factor `(j+80)/100 ∈ [0.8, 1.19]` (truncated) and
capped at 5 minutes, and the expected delay (the sum over the 40
equiprobable draws) is non-decreasing from attempt `k` to `k+1`.  At
larger attempts the wrapping product can turn the delay negative (attempt
33 at the configured 25 ms base), where the formula and the monotonicity
fail. -/
theorem backoff_cap_always_monotone_without_overflow (base : Int)
    (attempt : Nat) (j : Fin 40) (hbase : 0 ≤ base)
    (hno : base * 3 ^ (attempt + 1) < 2 ^ 63) :
    (∀ (b : Int) (k : Nat) (i : Fin 40), BackoffDelay b k i ≤ fiveMinutesNs) ∧
    80 ≤ j.val + 80 ∧ j.val + 80 ≤ 119 ∧
    BackoffDelay base attempt j =
      (if ((base * 3 ^ attempt) * ((j.val : Int) + 80)).tdiv 100 >
          fiveMinutesNs
       then fiveMinutesNs
       else ((base * 3 ^ attempt) * ((j.val : Int) + 80)).tdiv 100) ∧
    (∑ i : Fin 40, BackoffDelay base attempt i) ≤
      ∑ i : Fin 40, BackoffDelay base (attempt + 1) i := by
  have hj := j.isLt
  refine ⟨?_, by omega, by omega, ?_, ?_⟩
  · intro b k i
    unfold BackoffDelay fiveMinutesNs
    dsimp only
    split_ifs with h
    · exact le_refl _
    · omega
  · have hle : base * 3 ^ attempt ≤ base * 3 ^ (attempt + 1) :=
      mul_le_mul_of_nonneg_left
        (pow_le_pow_right₀ (by norm_num) (Nat.le_succ attempt)) hbase
    have h0k : 0 ≤ base * 3 ^ attempt := mul_nonneg hbase (by positivity)
    unfold BackoffDelay
    rw [wrapInt64_eq_self _ h0k (lt_of_le_of_lt hle hno)]
  · exact Finset.sum_le_sum fun i _ =>
      backoffDelay_mono_of_no_overflow base attempt i hbase hno

/-- Witness for C4's amended theorem at the configured 25 ms base, attempt
3, jitter draw 0 (no overflow anywhere near). -/
theorem backoff_cap_always_monotone_without_overflow_witness :
    (0 : Int) ≤ 25000000 ∧ (25000000 : Int) * 3 ^ (3 + 1) < 2 ^ 63 ∧
    ((∀ (b : Int) (k : Nat) (i : Fin 40),
        BackoffDelay b k i ≤ fiveMinutesNs) ∧
     80 ≤ (0 : Fin 40).val + 80 ∧ (0 : Fin 40).val + 80 ≤ 119 ∧
     BackoffDelay 25000000 3 (0 : Fin 40) =
       (if ((25000000 * 3 ^ 3) * (((0 : Fin 40).val : Int) + 80)).tdiv 100 >
           fiveMinutesNs
        then fiveMinutesNs
        else ((25000000 * 3 ^ 3) * (((0 : Fin 40).val : Int) + 80)).tdiv 100) ∧
     (∑ i : Fin 40, BackoffDelay 25000000 3 i) ≤
       ∑ i : Fin 40, BackoffDelay 25000000 (3 + 1) i) :=
  ⟨by norm_num, by norm_num,
   backoff_cap_always_monotone_without_overflow 25000000 3 (0 : Fin 40)
     (by norm_num) (by norm_num)⟩

/-- C10: `Done` is not idempotent: on a handle whose exit channel is still
open, the first `Done` closes it, and a second `Done` executes `close` on
the already-closed channel, which panics. -/
theorem done_second_call_panics (st : S3NodeState)
    (h : st.exitClosed = false) :
    st.Done = .ok { st with exitClosed := true } ∧
    ({ st with exitClosed := true } : S3NodeState).Done = .panics := by
  unfold S3NodeState.Done
  simp [h]

/-- Witness for C10 at a fresh handle. -/
theorem done_second_call_panics_witness :
    idleNode.exitClosed = false ∧
      (idleNode.Done = .ok { idleNode with exitClosed := true } ∧
       ({ idleNode with exitClosed := true } : S3NodeState).Done = .panics) :=
  ⟨rfl, done_second_call_panics idleNode rfl⟩

/-- C9 counterexample: on a fresh handle (live context, no underlying
closer), after a completed `Close` a `Read` whose underlying stream yields
5 bytes returns `(0, none)` — no error at all, in particular no
"handle closed" error. -/
theorem read_after_close_returns_no_error :
    ((idleNode.Close).2.closed = true) ∧
      (idleNode.Close).2.Read (5, none) = (0, none) := by decide

/-- C9 as amended: a `read()` after a completed `close()` is not rejected by
the handle — `Read` never consults the closed flag, so it behaves exactly as
before the close (context check, underlying read, byte-count clamp); and
`close()` is idempotent: a second `Close` is a no-op returning nil. -/
theorem read_ignores_closed_flag_and_close_idempotent (st : S3NodeState)
    (rd : Int × Option S3Err) :
    ({ st with closed := true } : S3NodeState).Read rd = st.Read rd ∧
    (st.Close).2.Close = (none, (st.Close).2) :=
  ⟨rfl, close_of_closed _ (closed_after_close st)⟩

/-- C5: building the tree from exactly the keys `a/b/c.txt`, `a/b/d.txt`,
`a/e.txt` yields one directory `a` under the root, one directory `b` under
`a` with exactly the file children `c.txt` and `d.txt`, and the file
`e.txt` directly under `a`; no component is duplicated under any parent. -/
theorem onAdd_three_keys :
    OnAdd [("a/b/c.txt", false), ("a/b/d.txt", false), ("a/e.txt", false)] =
      .mk true [("a", .mk true
        [("b", .mk true [("c.txt", .mk false []), ("d.txt", .mk false [])]),
         ("e.txt", .mk false [])])] := rfl

/-- C6 counterexample: the builder signals no error on a taxonomy conflict
and does silently overwrite.  With keys `a/b` then `a`, the directory node
`a` (holding the file `b`) is replaced by a childless file node; with keys
`a` then `a/b`, the file node `a` is descended into and silently gains the
child `b`. -/
theorem onAdd_taxonomy_conflict_overwrites :
    OnAdd [("a/b", false), ("a", false)] = .mk true [("a", .mk false [])] ∧
    OnAdd [("a", false), ("a/b", false)] =
      .mk true [("a", .mk false [("b", .mk false [])])] :=
  ⟨rfl, rfl⟩

/-- C6 as amended: when a later key meets a component name that already
exists under the current parent, the builder raises no error: an existing
child is descended into whatever its kind (intermediate component), and the
node at the final component is silently overwritten by a fresh file node. -/
theorem attach_conflicting_component_no_error (node ch : Inode)
    (c base : String) (rest : List String)
    (hc : node.getChild c = some ch) :
    attachKey node (c :: rest) base =
      node.addChild c (attachKey ch rest base) ∧
    (attachKey node [] base).getChild base = some (.mk false []) := by
  constructor
  · rw [show attachKey node (c :: rest) base =
        (match node.getChild c with
         | some ch => node.addChild c (attachKey ch rest base)
         | none => node.addChild c (attachKey (.mk true []) rest base))
      from rfl, hc]
  · exact Inode.getChild_addChild node base _

/-- Witness for C6's amended theorem: a root holding the file `a`, a key
with intermediate component `a` and base `b`. -/
theorem attach_conflicting_component_no_error_witness :
    ((Inode.mk true [("a", .mk false [])]).getChild "a" =
        some (.mk false [])) ∧
      (attachKey (.mk true [("a", .mk false [])]) ["a"] "b" =
          (Inode.mk true [("a", .mk false [])]).addChild "a"
            (attachKey (.mk false []) [] "b") ∧
        (attachKey (.mk true [("a", .mk false [])]) [] "b").getChild "b" =
          some (.mk false [])) :=
  ⟨rfl, attach_conflicting_component_no_error
    (.mk true [("a", .mk false [])]) (.mk false []) "a" "b" [] rfl⟩

/-- C7: on an existing bucket, `GetObject` issues the `HeadObject` request
(after the two `HeadBucket` validation probes) strictly before the download,
hands the downloader a buffer pre-sized to the declared content length, and
fails with the fatal size-mismatch error ("Unknown Error In Ceph RGW")
whenever the number of bytes actually read differs from that length. -/
theorem getObject_head_then_presized_download (be : Backend)
    (dl : Nat → Except S3Err Nat) (bucket path : String) (len n : Nat)
    (hname : ¬ bucket.utf8ByteSize ≤ 2)
    (hprobe : be.headBucket bucket = .ok ())
    (hhead : be.headObject bucket (cleanKey path) = .ok len)
    (hdl : dl len = .ok n) :
    (GetObject be dl bucket path).2 =
      [.headBucket bucket, .headBucket bucket,
       .headObject bucket (cleanKey path),
       .download bucket (cleanKey path) len] ∧
    (n ≠ len → (GetObject be dl bucket path).1 = .error .sizeMismatch) ∧
    (n = len → (GetObject be dl bucket path).1 =
      .ok (splitPath (cleanKey path))) := by
  have hval : validateBucket be bucket = (1, [.headBucket bucket]) := by
    unfold validateBucket
    rw [if_neg hname, hprobe]
  have hho : HeadObject be bucket path =
      (.ok len, [.headBucket bucket, .headObject bucket (cleanKey path)]) := by
    unfold HeadObject
    rw [hval]
    dsimp only
    rw [if_neg (show ¬ (1 : Int) ≠ 1 by norm_num), hhead]
    rfl
  unfold GetObject
  dsimp only
  rw [hval, hho]
  dsimp only
  rw [if_neg (show ¬ (1 : Int) ≠ 1 by norm_num)]
  rw [hdl]
  dsimp only
  refine ⟨?_, fun hne => ?_, fun heq => ?_⟩
  · by_cases h : n ≠ len
    · rw [if_pos h]
      rfl
    · rw [if_neg h]
      rfl
  · rw [if_pos hne]
  · rw [if_neg (by simp [heq])]

/-- Witness for C7: bucket `"abc"`, key `"k1"` of declared length 5, a
download that reads only 3 bytes — the mismatch case fires. -/
theorem getObject_head_then_presized_download_witness :
    (¬ "abc".utf8ByteSize ≤ 2) ∧
    sampleBackend.headBucket "abc" = .ok () ∧
    sampleBackend.headObject "abc" (cleanKey "k1") = .ok 5 ∧
    (fun _ : Nat => (.ok 3 : Except S3Err Nat)) 5 = .ok 3 ∧
    ((GetObject sampleBackend (fun _ => .ok 3) "abc" "k1").2 =
      [.headBucket "abc", .headBucket "abc",
       .headObject "abc" (cleanKey "k1"), .download "abc" (cleanKey "k1") 5] ∧
     ((3 : Nat) ≠ 5 →
       (GetObject sampleBackend (fun _ => .ok 3) "abc" "k1").1 =
         .error .sizeMismatch) ∧
     ((3 : Nat) = 5 →
       (GetObject sampleBackend (fun _ => .ok 3) "abc" "k1").1 =
         .ok (splitPath (cleanKey "k1")))) :=
  ⟨by decide, rfl, rfl, rfl,
   getObject_head_then_presized_download sampleBackend (fun _ => .ok 3)
     "abc" "k1" 5 3 (by decide) rfl rfl rfl⟩

/-- C8: `GetObject` of a key the backend does not hold (it reports
no-such-key on the head request) fails with the object-not-found error
rather than returning success. -/
theorem getObject_missing_key_fails (be : Backend)
    (dl : Nat → Except S3Err Nat) (bucket path : String)
    (hname : ¬ bucket.utf8ByteSize ≤ 2)
    (hprobe : be.headBucket bucket = .ok ())
    (hhead : be.headObject bucket (cleanKey path) = .error .noSuchKey) :
    GetObject be dl bucket path =
      (.error .noSuchKey,
       [.headBucket bucket, .headBucket bucket,
        .headObject bucket (cleanKey path)]) := by
  have hval : validateBucket be bucket = (1, [.headBucket bucket]) := by
    unfold validateBucket
    rw [if_neg hname, hprobe]
  have hho : HeadObject be bucket path =
      (.error .noSuchKey,
       [.headBucket bucket, .headObject bucket (cleanKey path)]) := by
    unfold HeadObject
    rw [hval]
    dsimp only
    rw [if_neg (show ¬ (1 : Int) ≠ 1 by norm_num), hhead]
    rfl
  unfold GetObject
  dsimp only
  rw [hval, hho]
  dsimp only
  rw [if_neg (show ¬ (1 : Int) ≠ 1 by norm_num)]
  rfl

/-- Witness for C8: bucket `"abc"` exists, key `"nope"` was never written. -/
theorem getObject_missing_key_fails_witness :
    (¬ "abc".utf8ByteSize ≤ 2) ∧
    sampleBackend.headBucket "abc" = .ok () ∧
    sampleBackend.headObject "abc" (cleanKey "nope") = .error .noSuchKey ∧
    GetObject sampleBackend (fun _ => .ok 0) "abc" "nope" =
      (.error .noSuchKey,
       [.headBucket "abc", .headBucket "abc",
        .headObject "abc" (cleanKey "nope")]) :=
  ⟨by decide, rfl, rfl,
   getObject_missing_key_fails sampleBackend (fun _ => .ok 0) "abc" "nope"
     (by decide) rfl rfl⟩

/-- C1 (exhibit of the defect): on the existing bucket `"abc"` whose first
listing page holds `"k1"` and `"k2"`, with the delete of `"k1"` failing,
`DeleteBucket` terminates returning nil — the drain loop executes
`return err` with the `ListObjectsV2` error variable, which is nil, instead
of the received delete error.  The trace confirms the two parts of the
claim that do hold: the delete of `"k2"` is never attempted and no backend
`DeleteBucket` request is issued — but the call reports success instead of
propagating the first delete error. -/
theorem deleteBucket_swallows_delete_error :
    (fun k => if k = "k1" then some (S3Err.backendErr 7) else none)
        (cleanKey "k1") = some (.backendErr 7) ∧
    DeleteBucket sampleBackend
        (fun k => if k = "k1" then some (.backendErr 7) else none)
        (.ok ()) [["k1", "k2"]] "abc" =
      (.terminates none,
       [.headBucket "abc", .listObjects "abc", .headBucket "abc",
        .deleteObject "abc" "k1"]) :=
  ⟨rfl, rfl⟩
